import Mathlib

/-!
Shallow embedding of the request-time authorization layer of the
`twitter-mcp` repository, and theorems settling the frozen claims about it.

The embedding covers:
* the Go standard-library string operations the code relies on
  (`strings.HasPrefix`, `strings.HasSuffix`, `strings.TrimSuffix`,
  `strings.Split`, `strings.Replace` with count 1), modelled over the
  decoded character list of a string;
* `internal/middlewares/tool_policy.go`: `isToolAllowed`, the policy
  evaluation loop of `ToolPolicyMiddleware.Middleware`, and the
  claims-extraction guard;
* `internal/tools/tools.go`: `wrapWithMiddlewares`, together with the
  middleware list passed by `cmd/main.go`;
* `internal/middlewares/jwt_validation.go` (the JWT request gate):
  header handling, token extraction, validation dispatch, payload
  decoding and the allow-condition loop;
* spec-modelled components whose bodies are not in the sources: the JWKS
  key cache refresh (`cacheJWKS`) and the token validator (`isTokenValid`).

Compiled CEL programs are modelled as functions from a claims payload to
`Option Bool`: `none` is a runtime evaluation error, `some b` records
whether the evaluated value compared equal to `true`.
-/

namespace TwitterMcp

/-! ### Go string primitives, over decoded characters -/

/-- Go `strings.HasPrefix(s, pre)`: `pre` is a prefix of `s`.
Modelled over decoded characters; for UTF-8 text the byte-level and
character-level prefix relations coincide. -/
def goHasPrefix (s pre : List Char) : Bool :=
  pre.isPrefixOf s

/-- Go `strings.HasSuffix(s, suf)`: `suf` is a suffix of `s`. -/
def goHasSuffix (s suf : List Char) : Bool :=
  suf.isSuffixOf s

/-- Go `strings.TrimSuffix(s, suf)`: removes `suf` from the end of `s`
when present, otherwise returns `s` unchanged. -/
def goTrimSuffix (s suf : List Char) : List Char :=
  if goHasSuffix s suf then s.take (s.length - suf.length) else s

/-- Go `strings.Split(s, sep)` for a single-character separator: the
list of segments between occurrences of `sep`.  `Split("", sep)` is
`[""]`, matching Go. -/
def goSplitChar (sep : Char) : List Char → List (List Char)
  | [] => [[]]
  | c :: rest =>
    if c = sep then [] :: goSplitChar sep rest
    else
      match goSplitChar sep rest with
      | [] => [[c]]
      | seg :: segs => (c :: seg) :: segs

/-- Go `strings.Replace(s, old, "", 1)` for a non-empty `old`: removes
the first (leftmost) occurrence of `old` from `s`; if `old` does not
occur, `s` is returned unchanged. -/
def goReplaceOnceEmpty (old : List Char) : List Char → List Char
  | [] => []
  | c :: rest =>
    if old.isPrefixOf (c :: rest) then (c :: rest).drop old.length
    else c :: goReplaceOnceEmpty old rest

/-- Index of the first occurrence of `pat` in `l`, if any: the least
`i` such that `pat` is a prefix of `l.drop i`. -/
def firstOccurrenceIdx (pat : List Char) : List Char → Option Nat
  | [] => if pat.isPrefixOf ([] : List Char) then some 0 else none
  | c :: rest =>
    if pat.isPrefixOf (c :: rest) then some 0
    else (firstOccurrenceIdx pat rest).map (· + 1)

/-! ### Tool policy middleware (`internal/middlewares/tool_policy.go`) -/

/-- A compiled tool policy (struct `CompiledToolPolicy`): a precompiled
CEL program and the allowed tool patterns.  The program maps the claims
payload to `none` on evaluation error, or `some b` where `b` records
whether the evaluation result compared equal to `true`. -/
structure CompiledToolPolicy (C : Type) where
  program : C → Option Bool
  allowedTools : List String

/-- Outcome of the tool-policy wrapper around a tool handler:
`allow` runs the wrapped handler; `denyUnverified` is the structured
error result whose message reads "Access denied: unable to verify
permissions"; `denyNoPermission t` is the structured error result whose
message names the denied tool `t`. -/
inductive PolicyDecision where
  | allow
  | denyUnverified
  | denyNoPermission (toolName : String)
deriving DecidableEq, Repr

/-- Method `ToolPolicyMiddleware.isToolAllowed`: iterates the allowed
patterns in order, accepting the universal wildcard `*`, an exact match,
or a prefix match when the pattern ends in `*`. -/
def isToolAllowed (toolName : String) : List String → Bool
  | [] => false
  | allowed :: rest =>
    if allowed = "*" then true
    else if allowed = toolName then true
    else if goHasSuffix allowed.data "*".data &&
        goHasPrefix toolName.data (goTrimSuffix allowed.data "*".data) then true
    else isToolAllowed toolName rest

/-- The policy loop of `ToolPolicyMiddleware.Middleware`: policies are
checked in declared order; an evaluation error logs and continues with
the next policy; a policy whose program evaluated equal to `true` and
whose patterns cover the tool allows; when the loop finishes without a
match the invocation is denied naming the tool. -/
def evalPolicies {C : Type} (toolName : String) (payload : C) :
    List (CompiledToolPolicy C) → PolicyDecision
  | [] => .denyNoPermission toolName
  | policy :: rest =>
    match policy.program payload with
    | none => evalPolicies toolName payload rest
    | some v =>
      if v && isToolAllowed toolName policy.allowedTools then .allow
      else evalPolicies toolName payload rest

/-- Method `ToolPolicyMiddleware.Middleware` as a decision function:
with no policies configured everything is allowed; otherwise the JWT
payload is extracted from the context (`extractJWTPayloadFromContext`,
modelled by the `Option C` argument, `none` when the context holds no
payload), its absence is a hard denial, and the compiled policies are
evaluated in order. -/
def toolPolicyMiddleware {C : Type} (compiledPolicies : List (CompiledToolPolicy C))
    (ctxPayload : Option C) (toolName : String) : PolicyDecision :=
  if compiledPolicies.length = 0 then .allow
  else
    match ctxPayload with
    | none => .denyUnverified
    | some payload => evalPolicies toolName payload compiledPolicies

/-! ### Tool registration (`internal/tools/tools.go` and `cmd/main.go`) -/

/-- Method `ToolsManager.wrapWithMiddlewares`: applies the configured
tool middlewares in reverse order so the first middleware in the list is
the outermost wrapper. -/
def wrapWithMiddlewares {H : Type} (middlewareList : List (H → H)) (handler : H) : H :=
  middlewareList.foldr (fun mw h => mw h) handler

/-- The tool middleware list passed by `cmd/main.go` when constructing
`ToolsManager`: the empty list literal `[]middlewares.ToolMiddleware{}`. -/
def mainToolMiddlewares (H : Type) : List (H → H) := []

/-! ### JWT validation middleware (`internal/middlewares/jwt_validation.go`) -/

/-- Configuration consumed by the JWT request gate: the enforcement
flag `Middleware.JWT.Enabled` and the precompiled allow-condition CEL
programs (`mw.celPrograms`), each modelled as a function from the
decoded payload to `Option Bool` (`none` on evaluation error). -/
structure JWTConfig (C : Type) where
  enabled : Bool
  allowConditions : List (C → Option Bool)

/-- Result of the allow-condition loop in
`JWTValidationMiddleware.Middleware`: conditions run in order, an
evaluation error denies, a value not equal to `true` denies, and the
loop passes only when every condition evaluated equal to `true`. -/
inductive CondCheck where
  | passAll
  | denyError
  | denyUnmet
deriving DecidableEq, Repr

/-- The allow-condition loop of `JWTValidationMiddleware.Middleware`
(step 4 in the source). -/
def runAllowConditions {C : Type} (payload : C) :
    List (C → Option Bool) → CondCheck
  | [] => .passAll
  | prg :: rest =>
    match prg payload with
    | none => .denyError
    | some v => if v then runAllowConditions payload rest else .denyUnmet

/-- Line 1 of token extraction in the gate:
`strings.Replace(authHeader, "Bearer ", "", 1)`, the string handed to
`isTokenValid` and to payload decoding. -/
def gateTokenString (authHeader : String) : String :=
  ⟨goReplaceOnceEmpty "Bearer ".data authHeader.data⟩

/-- Observable outcome of `JWTValidationMiddleware.Middleware` on one
request: `status` is `some 401` when the gate wrote an unauthorized
response and `none` when it passed the request downstream;
`wwwAuthenticate` records whether the `WWW-Authenticate` hint header is
present on the response; `ctxClaims` is the decoded payload attached to
the downstream request context (`none` when the context key is unset). -/
structure GateResult (C : Type) where
  status : Option Nat
  wwwAuthenticate : Bool
  ctxClaims : Option C
deriving DecidableEq, Repr

/-- Method `JWTValidationMiddleware.Middleware` as a function of the
request.  `isTokenValidFn` abstracts the method `isTokenValid` (token
signature and expiry validation against the JWKS), `decodePayloadFn`
abstracts the base64url and JSON decoding of the payload segment, and
`authHeader` is the `Authorization` header value (the empty string when
the header is absent, as returned by `req.Header.Get`).

Control flow follows the source: when enforcement is disabled the
handler jumps to `nextStage` (deleting the never-set hint header and
serving the next handler with the untouched request); otherwise the
`WWW-Authenticate` header is set up-front, every denial path returns a
401 with that header still present, and the success path deletes the
header, stores the payload under the context key, and passes control
downstream. -/
def jwtMiddleware {C : Type} (cfg : JWTConfig C)
    (isTokenValidFn : String → Bool)
    (decodePayloadFn : String → Option C)
    (authHeader : String) : GateResult C :=
  if cfg.enabled = false then
    { status := none, wwwAuthenticate := false, ctxClaims := none }
  else
    -- WWW-Authenticate is set here; denial paths leave it in place.
    if authHeader = "" then
      { status := some 401, wwwAuthenticate := true, ctxClaims := none }
    else
      let tokenString := gateTokenString authHeader
      if isTokenValidFn tokenString = false then
        { status := some 401, wwwAuthenticate := true, ctxClaims := none }
      else
        match decodePayloadFn tokenString with
        | none =>
          { status := some 401, wwwAuthenticate := true, ctxClaims := none }
        | some tokenPayload =>
          match runAllowConditions tokenPayload cfg.allowConditions with
          | .denyError =>
            { status := some 401, wwwAuthenticate := true, ctxClaims := none }
          | .denyUnmet =>
            { status := some 401, wwwAuthenticate := true, ctxClaims := none }
          | .passAll =>
            { status := none, wwwAuthenticate := false, ctxClaims := some tokenPayload }

/-! ### Spec-modelled components

The bodies of `cacheJWKS` (the JWKS key cache worker) and
`isTokenValid` (the token validator) are not among the sources of this
repository: only their callers in `jwt_validation.go` are.  They are
modelled here from the specification. -/

/-- A key set indexed by key identifier (kid to key material). -/
abbrev JWKS := List (String × String)

/-- Modelled from the spec: the state owned by the JWKS cache worker
`cacheJWKS`, whose body is missing from the sources.  The cache owns an
immutable snapshot of verification keys, replaced wholesale on refresh. -/
structure KeyCacheState where
  jwks : JWKS
deriving DecidableEq, Repr

/-- Modelled from the spec: `get()` returns the latest snapshot,
non-blocking. -/
def KeyCacheState.get (s : KeyCacheState) : JWKS := s.jwks

/-- Modelled from the spec: one refresh cycle of the missing
`cacheJWKS` worker.  The remote key document is fetched
(`fetchResult`, an error or a body) and parsed (`parse`); on fetch or
parse failure the failure is logged and the previous snapshot is
retained, otherwise the snapshot is atomically swapped for the parsed
key set. -/
def KeyCacheState.refresh (s : KeyCacheState)
    (fetchResult : Except String String) (parse : String → Option JWKS) :
    KeyCacheState :=
  match fetchResult with
  | .error _ => s
  | .ok body =>
    match parse body with
    | none => s
    | some ks => { jwks := ks }

/-- Error taxonomy of the token validator, from the spec. -/
inductive TokenError where
  | MalformedToken
  | UnknownKey
  | InvalidSignature
  | Expired
  | NotYetValid
  | PayloadDecodeError
deriving DecidableEq, Repr

/-- Modelled from the spec: the method `isTokenValid`, whose body is
missing from the sources (only its caller in the gate is present).  Per
the spec the token is split into its dot-separated segments and
rejected with `MalformedToken` when the count is not exactly three; the
remaining checks (key lookup, signature verification, temporal claims)
are abstracted by `verifySegments`. -/
def isTokenValid {C : Type}
    (verifySegments : List (List Char) → Except TokenError C)
    (tokenString : String) : Except TokenError C :=
  let parts := goSplitChar '.' tokenString.data
  if parts.length ≠ 3 then .error .MalformedToken
  else verifySegments parts

/-- Definition following the wording of the claim about token
extraction, for comparison with `gateTokenString`: the header value
with only the first occurrence of the substring `"Bearer "` removed,
wherever it occurs, and unchanged when the substring does not occur. -/
def specFirstBearerStripped (authHeader : String) : String :=
  match firstOccurrenceIdx "Bearer ".data authHeader.data with
  | none => authHeader
  | some i => ⟨authHeader.data.take i ++ authHeader.data.drop (i + "Bearer ".data.length)⟩

/-! ### Helper lemmas -/

lemma goHasSuffix_eq_true_iff {s suf : List Char} :
    goHasSuffix s suf = true ↔ suf <:+ s := by
  simp [goHasSuffix]

lemma goHasPrefix_eq_true_iff {s pre : List Char} :
    goHasPrefix s pre = true ↔ pre <+: s := by
  simp [goHasPrefix]

lemma goTrimSuffix_singleton {pat : List Char} {c : Char} (h : [c] <:+ pat) :
    goTrimSuffix pat [c] = pat.dropLast := by
  unfold goTrimSuffix
  rw [if_pos (goHasSuffix_eq_true_iff.mpr h)]
  simp [List.dropLast_eq_take]

lemma isToolAllowed_cons (toolName a : String) (rest : List String) :
    isToolAllowed toolName (a :: rest) =
      ((a = "*" : Bool) || (a = toolName : Bool) ||
        (goHasSuffix a.data "*".data &&
          goHasPrefix toolName.data (goTrimSuffix a.data "*".data)) ||
        isToolAllowed toolName rest) := by
  rw [isToolAllowed]
  by_cases h1 : a = "*" <;> by_cases h2 : a = toolName <;> simp [h1, h2]

lemma isToolAllowed_eq_true_iff (toolName : String) (allowedTools : List String) :
    isToolAllowed toolName allowedTools = true ↔
      ∃ pat ∈ allowedTools, pat = "*" ∨ pat = toolName ∨
        ("*".data <:+ pat.data ∧ pat.data.dropLast <+: toolName.data) := by
  induction allowedTools with
  | nil => simp [isToolAllowed]
  | cons a rest ih =>
    rw [isToolAllowed_cons]
    simp only [Bool.or_eq_true, Bool.and_eq_true, decide_eq_true_eq, ih,
      List.mem_cons, exists_eq_or_imp]
    constructor
    · rintro (((h | h) | ⟨hsuf, hpre⟩) | h)
      · exact Or.inl (Or.inl h)
      · exact Or.inl (Or.inr (Or.inl h))
      · refine Or.inl (Or.inr (Or.inr ?_))
        have hs : "*".data <:+ a.data := goHasSuffix_eq_true_iff.mp hsuf
        refine ⟨hs, ?_⟩
        have := goHasPrefix_eq_true_iff.mp hpre
        rwa [goTrimSuffix_singleton hs] at this
      · exact Or.inr h
    · rintro ((h | h | ⟨hs, hp⟩) | h)
      · exact Or.inl (Or.inl (Or.inl h))
      · exact Or.inl (Or.inl (Or.inr h))
      · refine Or.inl (Or.inr ⟨goHasSuffix_eq_true_iff.mpr hs, ?_⟩)
        rw [goTrimSuffix_singleton hs]
        exact goHasPrefix_eq_true_iff.mpr hp
      · exact Or.inr h

lemma evalPolicies_skip_error {C : Type} (p : CompiledToolPolicy C)
    (ps : List (CompiledToolPolicy C)) (payload : C) (toolName : String)
    (h : p.program payload = none) :
    evalPolicies toolName payload (p :: ps) = evalPolicies toolName payload ps := by
  simp [evalPolicies, h]

lemma evalPolicies_allow_iff {C : Type} (toolName : String) (payload : C)
    (ps : List (CompiledToolPolicy C)) :
    evalPolicies toolName payload ps = .allow ↔
      ∃ p ∈ ps, p.program payload = some true ∧
        isToolAllowed toolName p.allowedTools = true := by
  induction ps with
  | nil => simp [evalPolicies]
  | cons p rest ih =>
    cases hp : p.program payload with
    | none => simp [evalPolicies, hp, ih]
    | some v =>
      rw [evalPolicies, hp]
      show (if (v && isToolAllowed toolName p.allowedTools) = true
          then PolicyDecision.allow
          else evalPolicies toolName payload rest) = PolicyDecision.allow ↔ _
      by_cases hv : (v && isToolAllowed toolName p.allowedTools) = true
      · rw [if_pos hv]
        have h1 : v = true ∧ isToolAllowed toolName p.allowedTools = true := by
          simpa using hv
        constructor
        · intro _
          exact ⟨p, List.mem_cons_self p rest, by rw [hp, h1.1], h1.2⟩
        · intro _
          rfl
      · rw [if_neg hv, ih]
        constructor
        · rintro ⟨q, hq, hqs⟩
          exact ⟨q, List.mem_cons_of_mem p hq, hqs⟩
        · rintro ⟨q, hq, hq1, hq2⟩
          rcases List.mem_cons.mp hq with rfl | hqr
          · exfalso
            apply hv
            rw [hp] at hq1
            have hv1 : v = true := by injection hq1
            simp [hv1, hq2]
          · exact ⟨q, hqr, hq1, hq2⟩

lemma evalPolicies_all_error {C : Type} (toolName : String) (payload : C)
    (ps : List (CompiledToolPolicy C))
    (h : ∀ p ∈ ps, p.program payload = none) :
    evalPolicies toolName payload ps = .denyNoPermission toolName := by
  induction ps with
  | nil => rfl
  | cons p rest ih =>
    rw [evalPolicies_skip_error p rest payload toolName (h p (List.mem_cons_self p rest))]
    exact ih (fun q hq => h q (List.mem_cons_of_mem p hq))

lemma goReplaceOnceEmpty_eq (pat : List Char) (l : List Char) :
    goReplaceOnceEmpty pat l =
      match firstOccurrenceIdx pat l with
      | none => l
      | some i => l.take i ++ l.drop (i + pat.length) := by
  induction l with
  | nil =>
    by_cases h : pat.isPrefixOf ([] : List Char)
    · have hnil : pat = [] := List.prefix_nil.mp (List.isPrefixOf_iff_prefix.mp h)
      simp [goReplaceOnceEmpty, firstOccurrenceIdx, h, hnil]
    · simp [goReplaceOnceEmpty, firstOccurrenceIdx, h]
  | cons c rest ih =>
    by_cases h : pat.isPrefixOf (c :: rest)
    · simp [goReplaceOnceEmpty, firstOccurrenceIdx, h]
    · rw [goReplaceOnceEmpty, if_neg (by simp [h]), firstOccurrenceIdx,
        if_neg (by simp [h]), ih]
      cases hf : firstOccurrenceIdx pat rest with
      | none => simp
      | some i =>
        show c :: (rest.take i ++ rest.drop (i + pat.length)) =
          (c :: rest).take (i + 1) ++ (c :: rest).drop (i + 1 + pat.length)
        rw [List.take_succ_cons]
        have harith : i + 1 + pat.length = (i + pat.length) + 1 := by omega
        rw [harith, List.drop_succ_cons]
        rfl

lemma jwtMiddleware_disabled {C : Type} (cfg : JWTConfig C)
    (v : String → Bool) (d : String → Option C) (h : String)
    (hc : cfg.enabled = false) :
    jwtMiddleware cfg v d h = ⟨none, false, none⟩ := by
  simp [jwtMiddleware, hc]

lemma jwtMiddleware_enabled_shape {C : Type} (cfg : JWTConfig C)
    (v : String → Bool) (d : String → Option C) (h : String)
    (hc : cfg.enabled = true) :
    jwtMiddleware cfg v d h = ⟨some 401, true, none⟩ ∨
      ∃ payload, jwtMiddleware cfg v d h = ⟨none, false, some payload⟩ := by
  simp only [jwtMiddleware, hc, Bool.true_eq_false, if_false]
  split
  · exact Or.inl rfl
  · split
    · exact Or.inl rfl
    · split
      · exact Or.inl rfl
      · split
        · exact Or.inl rfl
        · exact Or.inl rfl
        · exact Or.inr ⟨_, rfl⟩

lemma jwtMiddleware_invalidToken {C : Type} (cfg : JWTConfig C)
    (v : String → Bool) (d : String → Option C) (h : String)
    (hc : cfg.enabled = true) (hh : h ≠ "")
    (hv : v (gateTokenString h) = false) :
    jwtMiddleware cfg v d h = ⟨some 401, true, none⟩ := by
  simp [jwtMiddleware, hc, hh, hv]

lemma jwtMiddleware_condError {C : Type} (cfg : JWTConfig C)
    (v : String → Bool) (d : String → Option C) (h : String) (payload : C)
    (hc : cfg.enabled = true) (hh : h ≠ "")
    (hv : v (gateTokenString h) = true)
    (hd : d (gateTokenString h) = some payload)
    (hrun : runAllowConditions payload cfg.allowConditions = .denyError) :
    jwtMiddleware cfg v d h = ⟨some 401, true, none⟩ := by
  simp [jwtMiddleware, hc, hh, hv, hd, hrun]

lemma jwtMiddleware_validator_congr {C : Type} (cfg : JWTConfig C)
    (v₁ v₂ : String → Bool) (d : String → Option C) (h : String)
    (hv : v₁ (gateTokenString h) = v₂ (gateTokenString h)) :
    jwtMiddleware cfg v₁ d h = jwtMiddleware cfg v₂ d h := by
  simp only [jwtMiddleware, hv]

/-! ### Claims -/

/-- C1: the application wiring in `cmd/main.go` passes the empty tool
middleware list, so `wrapWithMiddlewares` hands back every registered
tool handler unwrapped and the Tool Policy Engine is never invoked
before a tool executes; the second conjunct evaluates the policy engine
at a configuration under which it would have denied the invocation
(only `get_*` tools allowed, tool `post_tweet` requested). -/
theorem C1_main_wiring_bypasses_tool_policy :
    (∀ (H : Type) (h : H), wrapWithMiddlewares (mainToolMiddlewares H) h = h) ∧
    toolPolicyMiddleware (C := Unit)
      [⟨fun _ => some true, ["get_*"]⟩] (some ()) "post_tweet" =
        .denyNoPermission "post_tweet" :=
  ⟨fun _ _ => rfl, by decide⟩

/-- C2 counterexample: two policies with true conditions, the first one
listing only `get_*` patterns and the second listing `*`; on tool
`post_tweet` the engine allows, so the first matching condition does
not win and a later policy does cause an allow, contrary to the claim. -/
theorem C2_counterexample_fallthrough_allows :
    toolPolicyMiddleware (C := Unit)
      [⟨fun _ => some true, ["get_*"]⟩, ⟨fun _ => some true, ["*"]⟩]
      (some ()) "post_tweet" = .allow := by decide

/-- C2 (amended): when the first policy whose condition evaluates true
has a pattern list that does not match the tool name, the engine does
not deny immediately: it continues with later policies, and with claims
present and at least one policy configured the invocation is allowed
exactly when some configured policy has a condition evaluating true and
a pattern list covering the tool name. -/
theorem C2_policy_loop_continues_after_condition_match
    (C : Type) (ps : List (CompiledToolPolicy C)) (payload : C) (toolName : String)
    (hne : ps ≠ []) :
    toolPolicyMiddleware ps (some payload) toolName = .allow ↔
      ∃ p ∈ ps, p.program payload = some true ∧
        isToolAllowed toolName p.allowedTools = true := by
  unfold toolPolicyMiddleware
  rw [if_neg (fun h => hne (List.length_eq_zero.mp h))]
  exact evalPolicies_allow_iff toolName payload ps

/-- C2 witness: the amended theorem applied to a single policy with a
true condition and the universal wildcard. -/
theorem C2_witness :
    toolPolicyMiddleware (C := Unit) [⟨fun _ => some true, ["*"]⟩] (some ()) "get_me" =
      .allow :=
  (C2_policy_loop_continues_after_condition_match Unit
      [⟨fun _ => some true, ["*"]⟩] () "get_me" (by simp)).mpr
    ⟨⟨fun _ => some true, ["*"]⟩, by simp, rfl, by decide⟩

/-- C3 counterexample: the first policy errors at evaluation time and
the second allows every tool; the engine allows the invocation, so an
evaluation error on one tool policy is skipped and a later policy
grants access, contrary to the claim. -/
theorem C3_counterexample_error_skipped_then_allowed :
    toolPolicyMiddleware (C := Unit)
      [⟨fun _ => none, ["*"]⟩, ⟨fun _ => some true, ["*"]⟩]
      (some ()) "get_me" = .allow := by decide

/-- C3 (amended): in the Request Gate an allow-condition evaluation
error denies the request with a 401 and the hint header, never an
implicit allow; in the Tool Policy Engine an evaluation error causes
that policy to be skipped (the loop continues with later policies,
which may grant access), and an erroring policy never itself grants
access: when every policy errors, the invocation is denied. -/
theorem C3_evaluation_error_handling :
    (∀ (C : Type) (cfg : JWTConfig C) (v : String → Bool)
        (d : String → Option C) (h : String) (payload : C),
      cfg.enabled = true → h ≠ "" → v (gateTokenString h) = true →
      d (gateTokenString h) = some payload →
      runAllowConditions payload cfg.allowConditions = .denyError →
      jwtMiddleware cfg v d h = ⟨some 401, true, none⟩) ∧
    (∀ (C : Type) (p : CompiledToolPolicy C) (ps : List (CompiledToolPolicy C))
        (payload : C) (toolName : String),
      p.program payload = none →
      evalPolicies toolName payload (p :: ps) = evalPolicies toolName payload ps) ∧
    (∀ (C : Type) (ps : List (CompiledToolPolicy C)) (payload : C) (toolName : String),
      (∀ p ∈ ps, p.program payload = none) →
      evalPolicies toolName payload ps = .denyNoPermission toolName) :=
  ⟨fun _ cfg v d h payload hc hh hv hd hrun =>
      jwtMiddleware_condError cfg v d h payload hc hh hv hd hrun,
   fun _ p ps payload toolName hp => evalPolicies_skip_error p ps payload toolName hp,
   fun _ ps payload toolName hall => evalPolicies_all_error toolName payload ps hall⟩

/-- C3 witness: the amended theorem applied to a gate whose single
allow condition errors, to a two-policy list whose head errors, and to
a single-policy list that errors everywhere. -/
theorem C3_witness :
    jwtMiddleware (C := Unit) ⟨true, [fun _ => none]⟩ (fun _ => true)
        (fun _ => some ()) "Bearer h.p.s" = ⟨some 401, true, none⟩ ∧
    evalPolicies (C := Unit) "get_me" ()
        [⟨fun _ => none, ["*"]⟩, ⟨fun _ => some true, ["*"]⟩] =
      evalPolicies "get_me" () [⟨fun _ => some true, ["*"]⟩] ∧
    evalPolicies (C := Unit) "get_me" () [⟨fun _ => none, ["*"]⟩] =
      .denyNoPermission "get_me" :=
  ⟨C3_evaluation_error_handling.1 Unit ⟨true, [fun _ => none]⟩ (fun _ => true)
      (fun _ => some ()) "Bearer h.p.s" () rfl (by decide) rfl rfl rfl,
   C3_evaluation_error_handling.2.1 Unit ⟨fun _ => none, ["*"]⟩
      [⟨fun _ => some true, ["*"]⟩] () "get_me" rfl,
   C3_evaluation_error_handling.2.2 Unit [⟨fun _ => none, ["*"]⟩] () "get_me"
      (by intro p hp; rcases List.mem_singleton.mp hp with rfl; rfl)⟩

/-- C4: `isToolAllowed` returns true if and only if some pattern in the
list is the universal wildcard `*`, or is exactly the tool name, or
ends in `*` and the pattern with the trailing `*` removed is a prefix
of the tool name; with a true-condition policy, `get_timeline` is
allowed under pattern `get_*` and denied when only `post_*` patterns
are listed. -/
theorem C4_isToolAllowed_matching :
    (∀ (toolName : String) (allowedTools : List String),
      isToolAllowed toolName allowedTools = true ↔
        ∃ pat ∈ allowedTools, pat = "*" ∨ pat = toolName ∨
          ("*".data <:+ pat.data ∧ pat.data.dropLast <+: toolName.data)) ∧
    toolPolicyMiddleware (C := Unit) [⟨fun _ => some true, ["get_*"]⟩]
      (some ()) "get_timeline" = .allow ∧
    toolPolicyMiddleware (C := Unit) [⟨fun _ => some true, ["post_*"]⟩]
      (some ()) "get_timeline" = .denyNoPermission "get_timeline" :=
  ⟨isToolAllowed_eq_true_iff, by decide, by decide⟩

/-- C4 witness: the characterization applied to tool `get_timeline` and
pattern list `[get_*]`. -/
theorem C4_witness :
    isToolAllowed "get_timeline" ["get_*"] = true :=
  (C4_isToolAllowed_matching.1 "get_timeline" ["get_*"]).mpr
    ⟨"get_*", by simp, Or.inr (Or.inr ⟨by decide, by decide⟩)⟩

/-- C5: with at least one tool policy configured and no claims payload
extractable from the request context, the engine returns the hard
denial whose message reads "Access denied: unable to verify
permissions", for every policy list and tool name — in particular
without consulting any policy program and without reaching the wrapped
handler. -/
theorem C5_missing_claims_hard_denial
    (C : Type) (ps : List (CompiledToolPolicy C)) (toolName : String)
    (hne : ps ≠ []) :
    toolPolicyMiddleware ps none toolName = .denyUnverified := by
  unfold toolPolicyMiddleware
  rw [if_neg (fun h => hne (List.length_eq_zero.mp h))]

/-- C5 witness: the theorem applied to one wildcard policy and tool
`post_tweet`. -/
theorem C5_witness :
    toolPolicyMiddleware (C := Unit) [⟨fun _ => some true, ["*"]⟩] none "post_tweet" =
      .denyUnverified :=
  C5_missing_claims_hard_denial Unit [⟨fun _ => some true, ["*"]⟩] "post_tweet" (by simp)

/-- C6 counterexample: with enforcement disabled the downstream context
claims entry is unset (`none`), not an empty claims map, contrary to
the claim. -/
theorem C6_counterexample_no_claims_attached :
    (jwtMiddleware (C := List (String × String))
        { enabled := false, allowConditions := [] }
        (fun _ => true) (fun _ => none) "").ctxClaims ≠ some [] := by decide

/-- C6 (amended): when JWT enforcement is disabled the gate passes every
request straight downstream with no 401, no hint header and no token
extraction, validation or condition checks (the result is independent
of the validator, the decoder and the header value), and it attaches no
claims to the downstream context: the context claims entry stays unset
rather than carrying an empty claims map. -/
theorem C6_disabled_gate_passthrough
    (C : Type) (cfg : JWTConfig C) (v : String → Bool)
    (d : String → Option C) (h : String)
    (hc : cfg.enabled = false) :
    jwtMiddleware cfg v d h = ⟨none, false, none⟩ :=
  jwtMiddleware_disabled cfg v d h hc

/-- C6 witness: the amended theorem applied to a disabled configuration
and an arbitrary bearer header. -/
theorem C6_witness :
    jwtMiddleware (C := Unit) ⟨false, []⟩ (fun _ => true) (fun _ => some ()) "Bearer x" =
      ⟨none, false, none⟩ :=
  C6_disabled_gate_passthrough Unit ⟨false, []⟩ (fun _ => true) (fun _ => some ())
    "Bearer x" rfl

/-- C7: with enforcement enabled, every 401 denial response of the gate
carries the `WWW-Authenticate` hint header and every response on which
the request is passed downstream does not carry it: the header is set
before validation and stripped only on the success path. -/
theorem C7_www_authenticate_iff_denied
    (C : Type) (cfg : JWTConfig C) (v : String → Bool)
    (d : String → Option C) (h : String)
    (hc : cfg.enabled = true) :
    ((jwtMiddleware cfg v d h).status = some 401 →
      (jwtMiddleware cfg v d h).wwwAuthenticate = true) ∧
    ((jwtMiddleware cfg v d h).status = none →
      (jwtMiddleware cfg v d h).wwwAuthenticate = false) := by
  rcases jwtMiddleware_enabled_shape cfg v d h hc with heq | ⟨payload, heq⟩
  · rw [heq]
    exact ⟨fun _ => rfl, fun hx => by simp at hx⟩
  · rw [heq]
    exact ⟨fun hx => by simp at hx, fun _ => rfl⟩

/-- C7 witness: the theorem applied to a denied request (missing
Authorization header) and to a passed request (valid token, no
conditions). -/
theorem C7_witness :
    (jwtMiddleware (C := Unit) ⟨true, []⟩ (fun _ => true)
        (fun _ => some ()) "").wwwAuthenticate = true ∧
    (jwtMiddleware (C := Unit) ⟨true, []⟩ (fun _ => true)
        (fun _ => some ()) "Bearer t").wwwAuthenticate = false :=
  ⟨(C7_www_authenticate_iff_denied Unit ⟨true, []⟩ (fun _ => true)
      (fun _ => some ()) "" rfl).1 (by decide),
   (C7_www_authenticate_iff_denied Unit ⟨true, []⟩ (fun _ => true)
      (fun _ => some ()) "Bearer t" rfl).2 (by decide)⟩

/-- C8: a key cache refresh that fails — the remote fetch errors, or
the fetched document fails to parse — leaves the state identical and in
particular `get()` returning the previous snapshot unchanged: no
replacement, clearing or partial update happens under error. -/
theorem C8_refresh_failure_preserves_snapshot :
    (∀ (s : KeyCacheState) (e : String) (parse : String → Option JWKS),
      (s.refresh (.error e) parse).get = s.get ∧ s.refresh (.error e) parse = s) ∧
    (∀ (s : KeyCacheState) (body : String) (parse : String → Option JWKS),
      parse body = none →
      (s.refresh (.ok body) parse).get = s.get ∧ s.refresh (.ok body) parse = s) :=
  ⟨fun _ _ _ => ⟨rfl, rfl⟩,
   fun s body parse hp => by
     constructor <;> simp [KeyCacheState.refresh, KeyCacheState.get, hp]⟩

/-- C8 witness: the theorem applied to a cache holding key `k1` and a
refresh whose fetched body does not parse. -/
theorem C8_witness :
    (KeyCacheState.refresh ⟨[("k1", "key1")]⟩ (.ok "garbage") (fun _ => none)).get =
        KeyCacheState.get ⟨[("k1", "key1")]⟩ ∧
    KeyCacheState.refresh ⟨[("k1", "key1")]⟩ (.ok "garbage") (fun _ => none) =
      ⟨[("k1", "key1")]⟩ :=
  C8_refresh_failure_preserves_snapshot.2 ⟨[("k1", "key1")]⟩ "garbage" (fun _ => none) rfl

/-- C9: for every token string whose number of dot-separated segments
is not exactly three, validation fails with `MalformedToken` — whatever
the remaining verification steps would do — and a gate whose validator
is that token validation denies such a request with a 401 and the hint
header, attaching no claims (so no payload is decoded downstream). -/
theorem C9_malformed_token_segments
    (C : Type) (verifySegments : List (List Char) → Except TokenError C)
    (t : String)
    (hseg : (goSplitChar '.' t.data).length ≠ 3) :
    isTokenValid verifySegments t = .error .MalformedToken ∧
    (∀ (cfg : JWTConfig C) (d : String → Option C) (hh : String),
      cfg.enabled = true → hh ≠ "" → gateTokenString hh = t →
      jwtMiddleware cfg (fun s => (isTokenValid verifySegments s).isOk) d hh =
        ⟨some 401, true, none⟩) := by
  have hval : isTokenValid verifySegments t = .error .MalformedToken := by
    simp [isTokenValid, hseg]
  refine ⟨hval, fun cfg d hh hc hhne hts => ?_⟩
  apply jwtMiddleware_invalidToken cfg _ d hh hc hhne
  rw [hts, hval]
  rfl

/-- C9 witness: the theorem applied to the two-segment token `a.b`,
standalone and behind a gate presented with `Bearer a.b`. -/
theorem C9_witness :
    isTokenValid (C := Unit) (fun _ => .ok ()) "a.b" = .error .MalformedToken ∧
    jwtMiddleware (C := Unit) ⟨true, []⟩
        (fun s => (isTokenValid (fun _ => .ok ()) s).isOk)
        (fun _ => some ()) "Bearer a.b" =
      ⟨some 401, true, none⟩ :=
  ⟨(C9_malformed_token_segments Unit (fun _ => .ok ()) "a.b" (by decide)).1,
   (C9_malformed_token_segments Unit (fun _ => .ok ()) "a.b" (by decide)).2
     ⟨true, []⟩ (fun _ => some ()) "Bearer a.b" rfl (by decide) (by decide)⟩

/-- C10: the token string handed to validation is the Authorization
header value with only the first occurrence of the substring
`"Bearer "` removed, wherever it occurs (`gateTokenString` refines the
claim-worded `specFirstBearerStripped`); a header without that
substring — a bare token, or a lowercase `bearer` prefix — is passed to
validation completely unchanged, never rejected for its shape; and the
gate consults the validator only at that extracted string. -/
theorem C10_token_extraction :
    (∀ h : String, gateTokenString h = specFirstBearerStripped h) ∧
    (∀ h : String, firstOccurrenceIdx "Bearer ".data h.data = none →
      gateTokenString h = h) ∧
    (∀ (C : Type) (cfg : JWTConfig C) (v₁ v₂ : String → Bool)
        (d : String → Option C) (h : String),
      v₁ (gateTokenString h) = v₂ (gateTokenString h) →
      jwtMiddleware cfg v₁ d h = jwtMiddleware cfg v₂ d h) := by
  have hmain : ∀ h : String, gateTokenString h = specFirstBearerStripped h := by
    intro h
    unfold gateTokenString specFirstBearerStripped
    rw [goReplaceOnceEmpty_eq]
    cases hf : firstOccurrenceIdx "Bearer ".data h.data with
    | none => rfl
    | some i => rfl
  refine ⟨hmain, fun h hf => ?_,
    fun _ cfg v₁ v₂ d h hv => jwtMiddleware_validator_congr cfg v₁ v₂ d h hv⟩
  rw [hmain h]
  unfold specFirstBearerStripped
  rw [hf]

/-- C10 witness: a lowercase `bearer abc` header is passed on
unchanged, and on header `xxBearer abc` the gate behaves identically
under a constant-true validator and a validator that checks its input
equals `xxabc`, since both agree at the extracted token. -/
theorem C10_witness :
    gateTokenString "bearer abc" = "bearer abc" ∧
    jwtMiddleware (C := Unit) ⟨true, []⟩ (fun _ => true) (fun _ => some ())
        "xxBearer abc" =
      jwtMiddleware (C := Unit) ⟨true, []⟩ (fun s => s == "xxabc") (fun _ => some ())
        "xxBearer abc" :=
  ⟨C10_token_extraction.2.1 "bearer abc" (by decide),
   C10_token_extraction.2.2 Unit ⟨true, []⟩ (fun _ => true) (fun s => s == "xxabc")
     (fun _ => some ()) "xxBearer abc" (by decide)⟩

end TwitterMcp
